import Mathlib

/-!
Verification of the user-properties controller
(`packages/api/src/controllers/userPropertiesController.ts`).

The controller offers four HTTP operations over a relational store:
upsert (PUT), list definitions (GET /), list values (GET /values) and
delete (DELETE).  We embed the store as explicit lists of rows, the
Prisma calls the controller makes (`userProperty.upsert`,
`userProperty.update`, `userProperty.deleteMany`,
`userPropertyAssignment.deleteMany`) as pure functions on that store,
and the handlers as functions from store and request body to store and
response.  Store faults are embedded with `Except`; a fault the store
may raise during delete is injected through an explicit parameter.
-/

namespace UserPropertiesController

/-- Definitions (`UserPropertyDefinition` payloads) are opaque to the
controller: it only passes them through and validates them against a
schema.  We embed them as strings and take the schema's validity
predicate as a parameter. -/
abbrev Defn := String

/-- A stored `UserProperty` row.  `definitionUpdatedAt` is a nullable
timestamp (clock values embedded as `Nat`); `exampleValue` is a nullable
column. -/
structure UserPropertyRow where
  id : String
  workspaceId : String
  name : String
  definition : Defn
  definitionUpdatedAt : Option Nat
  exampleValue : Option String
deriving DecidableEq, Repr

/-- A stored `UserPropertyAssignment` row (owned by the computation
subsystem; the delete handler removes them by owning property). -/
structure UserPropertyAssignmentRow where
  userPropertyId : String
  userId : String
  value : String
deriving DecidableEq, Repr

/-- The relational store the controller talks to through Prisma. -/
structure Store where
  userProperties : List UserPropertyRow
  assignments : List UserPropertyAssignmentRow
deriving DecidableEq, Repr

/-- Body of the PUT request (`UpsertUserPropertyResource`): every field
the handler destructures may be absent. -/
structure UpsertUserPropertyResource where
  id : Option String
  workspaceId : Option String
  name : Option String
  definition : Option Defn
  exampleValue : Option String
deriving DecidableEq, Repr

/-- The resource shape returned by a successful upsert
(`UserPropertyResource`). -/
structure UserPropertyResource where
  id : String
  name : String
  workspaceId : String
  definition : Defn
  exampleValue : Option String
deriving DecidableEq, Repr

/-- Faults the Prisma client can raise: `knownRequest c` embeds
`PrismaClientKnownRequestError` with code `c` (e.g. "P2025" record not
found, "P2023" malformed identifier), `validation` embeds
`PrismaClientValidationError` (e.g. an `undefined` unique `where`
argument), `other` any remaining fault. -/
inductive StoreFault where
  | knownRequest (code : String)
  | validation
  | other (msg : String)
deriving DecidableEq, Repr

/-- JavaScript truthiness of a possibly-absent string field: absent and
the empty string are falsy. -/
def optTruthy : Option String → Bool
  | none => false
  | some s => !s.isEmpty

/-- `protectedUserProperties.has(name)` where `name` may be absent:
`has(undefined)` is `false`. -/
def protectedHas (prot : List String) (name : Option String) : Bool :=
  match name with
  | some n => prot.contains n
  | none => false

/-- The `update` payload of the PUT handler: `none` embeds a field that
is `undefined` in the payload, which Prisma leaves unchanged. -/
structure UPUpdateData where
  workspaceId : Option String
  name : Option String
  definition : Option Defn
  definitionUpdatedAt : Option Nat
  exampleValue : Option String
deriving DecidableEq, Repr

/-- The `create` payload of the PUT handler's upsert call:
`definitionUpdatedAt` is omitted, so the new row gets the column's
default (null). -/
structure UPCreateData where
  id : String
  workspaceId : String
  name : String
  definition : Defn
  exampleValue : Option String
deriving DecidableEq, Repr

/-- Apply an update payload to a row: defined fields overwrite,
`undefined` fields are left unchanged (Prisma update semantics). -/
def applyUPUpdate (r : UserPropertyRow) (u : UPUpdateData) : UserPropertyRow :=
  { id := r.id
    workspaceId := u.workspaceId.getD r.workspaceId
    name := u.name.getD r.name
    definition := u.definition.getD r.definition
    definitionUpdatedAt :=
      match u.definitionUpdatedAt with
      | some t => some t
      | none => r.definitionUpdatedAt
    exampleValue :=
      match u.exampleValue with
      | some v => some v
      | none => r.exampleValue }

/-- The row created by the upsert's `create` payload: the omitted
`definitionUpdatedAt` stays null. -/
def createRow (c : UPCreateData) : UserPropertyRow :=
  { id := c.id
    workspaceId := c.workspaceId
    name := c.name
    definition := c.definition
    definitionUpdatedAt := none
    exampleValue := c.exampleValue }

/-- `prisma().userProperty.upsert({where: {id}, create, update})`: if a
row with the given id exists it is updated, otherwise the `create`
payload is inserted; the affected row is returned. -/
def prismaUserPropertyUpsert (st : Store) (i : String) (c : UPCreateData)
    (u : UPUpdateData) : Store × UserPropertyRow :=
  match st.userProperties.find? (fun r => r.id == i) with
  | some r =>
      ({ st with
          userProperties :=
            st.userProperties.map (fun q => if q.id == i then applyUPUpdate q u else q) },
        applyUPUpdate r u)
  | none =>
      ({ st with userProperties := st.userProperties ++ [createRow c] }, createRow c)

/-- `prisma().userProperty.update({where: {id}, data})`: an `undefined`
`where` argument raises a validation fault, a missing row raises
`P2025`; otherwise the matching row is updated and returned. -/
def prismaUserPropertyUpdate (st : Store) (whereId : Option String)
    (u : UPUpdateData) : Except StoreFault (Store × UserPropertyRow) :=
  match whereId with
  | none => .error .validation
  | some i =>
      match st.userProperties.find? (fun r => r.id == i) with
      | none => .error (.knownRequest "P2025")
      | some r =>
          .ok
            ({ st with
                userProperties :=
                  st.userProperties.map
                    (fun q => if q.id == i then applyUPUpdate q u else q) },
              applyUPUpdate r u)

/-- Modelled from the spec: `schemaValidate` from
`isomorphic-lib/src/resultHandling/schemaValidation` is not under the
sources given; per the spec it is
`validate(rawValue, schema) → Result<ValidatedValue, ValidationError>`,
checking the raw value against the schema and returning it on success,
never throwing.  The schema (`UserPropertyDefinition`) is embedded as a
validity predicate `valid`. -/
def schemaValidate (valid : Defn → Bool) (v : Defn) : Except String Defn :=
  if valid v then .ok v else .error "value does not match schema"

/-- Responses of the PUT handler. -/
inductive PutResponse where
  | badRequest400
  | serverError500
  | ok200 (resource : UserPropertyResource)
deriving DecidableEq, Repr

/-- The persistence step of the PUT handler (lines 45–78): upsert keyed
by id when `canCreate && id`, otherwise update-only on the row matching
`id`. -/
def putStoreStep (now : Nat) (st : Store) (body : UpsertUserPropertyResource) :
    Except StoreFault (Store × UserPropertyRow) :=
  let canCreate :=
    optTruthy body.workspaceId && optTruthy body.name && body.definition.isSome
  let definitionUpdatedAt : Option Nat :=
    if body.definition.isSome then some now else none
  let upd : UPUpdateData :=
    { workspaceId := body.workspaceId
      name := body.name
      definition := body.definition
      definitionUpdatedAt := definitionUpdatedAt
      exampleValue := body.exampleValue }
  match canCreate && optTruthy body.id, body.id, body.workspaceId, body.name,
      body.definition with
  | true, some i, some w, some n, some d =>
      .ok (prismaUserPropertyUpsert st i
        { id := i, workspaceId := w, name := n, definition := d,
          exampleValue := body.exampleValue } upd)
  | _, _, _, _, _ => prismaUserPropertyUpdate st body.id upd

/-- The PUT handler: rejects a protected supplied name with 400 before
any store access, persists through `putStoreStep`, validates the stored
definition (500 on failure) and returns the resource; store faults
propagate. -/
def putUserProperty (prot : List String) (valid : Defn → Bool) (now : Nat)
    (st : Store) (body : UpsertUserPropertyResource) :
    Except StoreFault (Store × PutResponse) :=
  if protectedHas prot body.name then .ok (st, .badRequest400)
  else
    match putStoreStep now st body with
    | .error f => .error f
    | .ok (st', row) =>
        match schemaValidate valid row.definition with
        | .error _ => .ok (st', .serverError500)
        | .ok defn =>
            .ok (st',
              .ok200
                { id := row.id
                  name := row.name
                  workspaceId := row.workspaceId
                  definition := defn
                  exampleValue := row.exampleValue })

/-- Modelled from the spec: `findAllUserProperties` (backend-lib) backing
`listDefinitions(workspaceId)` is not under the sources given; per the
spec it returns all properties owned by the workspace. -/
def listDefinitions (st : Store) (workspaceId : String) : List UserPropertyRow :=
  st.userProperties.filter (fun r => r.workspaceId == workspaceId)

/-- Responses of the DELETE handler. -/
inductive DeleteResponse where
  | notFound404
  | noContent204
deriving DecidableEq, Repr

/-- Outcome of the DELETE handler: a response, or a re-raised fault. -/
inductive DelOutcome where
  | resp (r : DeleteResponse)
  | raise (f : StoreFault)
deriving DecidableEq, Repr

/-- The filter of the assignments `deleteMany` (lines 181–196): the
assignment belongs to the property `i` and its owning property's name is
not in the protected set. -/
def assignmentDeleteCond (prot : List String) (ups : List UserPropertyRow)
    (i : String) (a : UserPropertyAssignmentRow) : Bool :=
  a.userPropertyId == i &&
    (match ups.find? (fun r => r.id == a.userPropertyId) with
     | some owner => !(prot.contains owner.name)
     | none => false)

/-- The filter of the property `deleteMany` (lines 197–210): the row has
id `i` and its name is not in the protected set. -/
def userPropertyDeleteCond (prot : List String) (i : String)
    (r : UserPropertyRow) : Bool :=
  r.id == i && !(prot.contains r.name)

/-- `prisma().userPropertyAssignment.deleteMany` with the handler's
filter. -/
def prismaDeleteManyAssignments (st : Store) (prot : List String) (i : String) :
    Store :=
  { st with
      assignments :=
        st.assignments.filter
          (fun a => !(assignmentDeleteCond prot st.userProperties i a)) }

/-- `prisma().userProperty.deleteMany` with the handler's filter; returns
the new store and the affected-row count. -/
def prismaDeleteManyUserProperties (st : Store) (prot : List String)
    (i : String) : Store × Nat :=
  ({ st with
      userProperties :=
        st.userProperties.filter (fun r => !(userPropertyDeleteCond prot i r)) },
    (st.userProperties.filter (userPropertyDeleteCond prot i)).length)

/-- The catch block of the DELETE handler (lines 212–222): a known
request error with code P2025 or P2023 becomes 404, every other fault is
re-thrown. -/
def deleteCatch (e : StoreFault) : DelOutcome :=
  match e with
  | .knownRequest code =>
      if code == "P2025" then .resp .notFound404
      else if code == "P2023" then .resp .notFound404
      else .raise (.knownRequest code)
  | f => .raise f

/-- The DELETE handler: deletes the assignments of the non-protected
property `i`, then the non-protected property row itself; 404 when zero
rows were affected, 204 otherwise.  `storeFault` injects a fault raised
by the store inside the try block, which the catch block handles. -/
def deleteUserProperty (prot : List String) (st : Store) (i : String)
    (storeFault : Option StoreFault) : Store × DelOutcome :=
  match storeFault with
  | some e => (st, deleteCatch e)
  | none =>
      let st1 := prismaDeleteManyAssignments st prot i
      let (st2, deletedCount) := prismaDeleteManyUserProperties st1 prot i
      if deletedCount ≤ 0 then (st2, .resp .notFound404)
      else (st2, .resp .noContent204)

end UserPropertiesController

namespace UserPropertiesController

/-! ### Helper lemmas -/

/-- The PUT handler rejects with 400, without touching the store, exactly
when the supplied name is in the protected set. -/
theorem putUserProperty_protected (prot : List String) (valid : Defn → Bool)
    (now : Nat) (st : Store) (body : UpsertUserPropertyResource) (n : String)
    (hname : body.name = some n) (hprot : prot.contains n = true) :
    putUserProperty prot valid now st body = .ok (st, .badRequest400) := by
  have h : protectedHas prot body.name = true := by
    rw [hname]
    exact hprot
  rw [putUserProperty, if_pos h]

/-! ### Claims -/

/-- C1 (counterexample): an upsert that supplies a protected property's
id but omits the name field bypasses the protected-name check and
modifies the protected row (its definition and definitionUpdatedAt
change), refuting the claim that no upsert call ever changes such a
row. -/
theorem C1_put_modifies_protected_row_cex :
    (putUserProperty ["pname"] (fun _ => true) 5
        ⟨[⟨"p1", "w1", "pname", "olddef", some 1, none⟩], []⟩
        ⟨some "p1", some "w1", none, some "newdef", none⟩ =
      .ok (⟨[⟨"p1", "w1", "pname", "newdef", some 5, none⟩], []⟩,
        .ok200 ⟨"p1", "pname", "w1", "newdef", none⟩))
    ∧ (["pname"] : List String).contains "pname" = true
    ∧ ("newdef" : Defn) ≠ "olddef" :=
  ⟨rfl, rfl, by decide⟩

/-- C1 (amended): the protection holds against the *supplied* name: when
the upsert supplies a protected name it is rejected with 400, the store
is returned unchanged, and every stored row — in particular every
protected one — is preserved. -/
theorem C1_put_protected_rows_preserved (prot : List String)
    (valid : Defn → Bool) (now : Nat) (st : Store)
    (body : UpsertUserPropertyResource) (n : String) (row : UserPropertyRow)
    (hrow : row ∈ st.userProperties) (_hrowprot : prot.contains row.name = true)
    (hname : body.name = some n) (hprot : prot.contains n = true) :
    putUserProperty prot valid now st body = .ok (st, .badRequest400) ∧
      row ∈ st.userProperties :=
  ⟨putUserProperty_protected prot valid now st body n hname hprot, hrow⟩

/-- C1 (witness). -/
theorem C1_put_protected_rows_preserved_witness :
    putUserProperty ["pn"] (fun _ => true) 0
        ⟨[⟨"p1", "w1", "pn", "d", none, none⟩], []⟩
        ⟨some "p1", none, some "pn", none, none⟩ =
      .ok (⟨[⟨"p1", "w1", "pn", "d", none, none⟩], []⟩, .badRequest400) ∧
    (⟨"p1", "w1", "pn", "d", none, none⟩ : UserPropertyRow) ∈
      [(⟨"p1", "w1", "pn", "d", none, none⟩ : UserPropertyRow)] :=
  C1_put_protected_rows_preserved ["pn"] (fun _ => true) 0
    ⟨[⟨"p1", "w1", "pn", "d", none, none⟩], []⟩
    ⟨some "p1", none, some "pn", none, none⟩ "pn"
    ⟨"p1", "w1", "pn", "d", none, none⟩ (by decide) (by decide) rfl (by decide)

/-- C4: an upsert whose supplied name is protected returns 400 whatever
the other fields hold, and performs no store write: the store comes back
unchanged. -/
theorem C4_put_protected_name_rejected (prot : List String)
    (valid : Defn → Bool) (now : Nat) (st : Store)
    (body : UpsertUserPropertyResource) (n : String)
    (hname : body.name = some n) (hprot : prot.contains n = true) :
    putUserProperty prot valid now st body = .ok (st, .badRequest400) :=
  putUserProperty_protected prot valid now st body n hname hprot

/-- C4 (witness). -/
theorem C4_put_protected_name_rejected_witness :
    putUserProperty ["x"] (fun _ => true) 0 ⟨[], []⟩
        ⟨some "a", some "w", some "x", some "d", some "e"⟩ =
      .ok (⟨[], []⟩, .badRequest400) :=
  C4_put_protected_name_rejected ["x"] (fun _ => true) 0 ⟨[], []⟩
    ⟨some "a", some "w", some "x", some "d", some "e"⟩ "x" rfl (by decide)

/-- C2 (counterexample): with id absent and workspaceId, name,
definition all present (name not protected), the handler takes the
update-only branch with an undefined `where` id, which raises a store
validation fault: no row is created, refuting the claim that this input
creates a new user property. -/
theorem C2_put_create_requires_id_cex :
    putUserProperty ["pname"] (fun _ => true) 5 ⟨[], []⟩
        ⟨none, some "w1", some "n1", some "d1", none⟩ =
      .error .validation :=
  rfl

/-- C10: the upsert keys its write only on id and never checks that the
matched row belongs to the supplied workspaceId: supplying an existing
property's id together with a different workspaceId succeeds and
reassigns the property to the other workspace. -/
theorem C10_put_cross_workspace_reassign :
    (putUserProperty ["pp"] (fun _ => true) 7
        ⟨[⟨"u1", "w1", "n1", "d0", none, none⟩], []⟩
        ⟨some "u1", some "w2", some "n1", some "d1", none⟩ =
      .ok (⟨[⟨"u1", "w2", "n1", "d1", some 7, none⟩], []⟩,
        .ok200 ⟨"u1", "n1", "w2", "d1", none⟩))
    ∧ ("w2" : String) ≠ "w1" :=
  ⟨rfl, by decide⟩

end UserPropertiesController

namespace UserPropertiesController

/-- C3: the DELETE handler returns 404 when zero property rows match
(the id does not exist or the matching row's name is protected), maps
the store faults "record not found" (P2025) and "malformed identifier"
(P2023) to 404, propagates every other store fault unmodified, and
returns 204 when at least one property row is deleted. -/
theorem C3_delete_result_classification (prot : List String) (st : Store)
    (i : String) (f : StoreFault) :
    ((st.userProperties.filter (userPropertyDeleteCond prot i)).length = 0 →
        (deleteUserProperty prot st i none).2 = .resp .notFound404)
    ∧ (1 ≤ (st.userProperties.filter (userPropertyDeleteCond prot i)).length →
        (deleteUserProperty prot st i none).2 = .resp .noContent204)
    ∧ (deleteUserProperty prot st i (some (.knownRequest "P2025"))).2 =
        .resp .notFound404
    ∧ (deleteUserProperty prot st i (some (.knownRequest "P2023"))).2 =
        .resp .notFound404
    ∧ (f ≠ .knownRequest "P2025" → f ≠ .knownRequest "P2023" →
        (deleteUserProperty prot st i (some f)).2 = .raise f) := by
  refine ⟨?_, ?_, rfl, rfl, ?_⟩
  · intro h
    simp [deleteUserProperty, prismaDeleteManyAssignments,
      prismaDeleteManyUserProperties, h]
  · intro h
    have h0 : ¬ (st.userProperties.filter (userPropertyDeleteCond prot i)).length ≤ 0 := by
      omega
    simp [deleteUserProperty, prismaDeleteManyAssignments,
      prismaDeleteManyUserProperties, h0]
  · intro h1 h2
    cases f with
    | knownRequest code =>
        have hc1 : (code == "P2025") = false := by
          simp only [beq_eq_false_iff_ne, ne_eq]
          intro hcontra
          exact h1 (by rw [hcontra])
        have hc2 : (code == "P2023") = false := by
          simp only [beq_eq_false_iff_ne, ne_eq]
          intro hcontra
          exact h2 (by rw [hcontra])
        simp [deleteUserProperty, deleteCatch, hc1, hc2]
    | validation => rfl
    | other msg => rfl

/-- C3 (witness). -/
theorem C3_delete_result_classification_witness :
    (deleteUserProperty ["pn"] ⟨[⟨"p1", "w1", "pn", "d", none, none⟩], []⟩
      "p1" none).2 = .resp .notFound404 :=
  (C3_delete_result_classification ["pn"]
    ⟨[⟨"p1", "w1", "pn", "d", none, none⟩], []⟩ "p1" .validation).1 (by decide)

/-- C7: deleting an id whose stored property rows all carry protected
names returns 404 and leaves the store — the property row and all of
its assignments — completely unchanged. -/
theorem C7_delete_protected_untouched (prot : List String) (st : Store)
    (i : String)
    (_hex : ∃ r ∈ st.userProperties, r.id = i ∧ prot.contains r.name = true)
    (hall : ∀ r ∈ st.userProperties, r.id = i → prot.contains r.name = true) :
    deleteUserProperty prot st i none = (st, .resp .notFound404) := by
  have hpcond : ∀ r ∈ st.userProperties, userPropertyDeleteCond prot i r = false := by
    intro r hr
    unfold userPropertyDeleteCond
    cases hid : (r.id == i) with
    | false => simp
    | true =>
        have hideq : r.id = i := by simpa using hid
        rw [hall r hr hideq]
        simp
  have hacond : ∀ a ∈ st.assignments,
      assignmentDeleteCond prot st.userProperties i a = false := by
    intro a ha
    unfold assignmentDeleteCond
    cases hid : (a.userPropertyId == i) with
    | false => simp [hid]
    | true =>
        cases hfind : st.userProperties.find? (fun r => r.id == a.userPropertyId) with
        | none => simp [hfind]
        | some owner =>
            have hmem := List.mem_of_find?_eq_some hfind
            have hpred := List.find?_some hfind
            have hoid : owner.id = i := by
              have h1 : owner.id = a.userPropertyId := by simpa using hpred
              have h2 : a.userPropertyId = i := by simpa using hid
              rw [h1, h2]
            have hc : prot.contains owner.name = true := hall owner hmem hoid
            simp only [hfind, hc, Bool.not_true, Bool.and_false]
  have hfa : st.assignments.filter
      (fun a => !assignmentDeleteCond prot st.userProperties i a) = st.assignments := by
    apply List.filter_eq_self.mpr
    intro a ha
    simp [hacond a ha]
  have hfp : st.userProperties.filter
      (fun r => !userPropertyDeleteCond prot i r) = st.userProperties := by
    apply List.filter_eq_self.mpr
    intro r hr
    simp [hpcond r hr]
  have hlen : (st.userProperties.filter (userPropertyDeleteCond prot i)).length = 0 := by
    rw [List.length_eq_zero]
    apply List.filter_eq_nil_iff.mpr
    intro r hr
    simp [hpcond r hr]
  simp [deleteUserProperty, prismaDeleteManyAssignments,
    prismaDeleteManyUserProperties, hfa, hfp, hlen]

/-- C7 (witness). -/
theorem C7_delete_protected_untouched_witness :
    deleteUserProperty ["pn"]
        ⟨[⟨"p1", "w1", "pn", "d", none, none⟩], [⟨"p1", "u1", "v"⟩]⟩ "p1" none =
      (⟨[⟨"p1", "w1", "pn", "d", none, none⟩], [⟨"p1", "u1", "v"⟩]⟩,
        .resp .notFound404) :=
  C7_delete_protected_untouched ["pn"]
    ⟨[⟨"p1", "w1", "pn", "d", none, none⟩], [⟨"p1", "u1", "v"⟩]⟩ "p1"
    (by decide) (by decide)

end UserPropertiesController

namespace UserPropertiesController

/-- C2 (amended): creation requires `id` to be present as well: when id,
workspaceId, name and definition are all supplied (strings non-empty,
name not protected), no stored row carries that id, and the definition
is schema-valid, the upsert inserts a new row with exactly those fields
(`definitionUpdatedAt` unset), and a subsequent `listDefinitions` for
that workspace includes it with matching fields.  (With id absent the
handler takes the update-only path and raises a store fault, creating
nothing — see the counterexample.) -/
theorem C2_put_create_with_id (prot : List String) (valid : Defn → Bool)
    (now : Nat) (st : Store) (i w n : String) (d : Defn) (ev : Option String)
    (hfresh : st.userProperties.find? (fun r => r.id == i) = none)
    (hi : i.isEmpty = false) (hw : w.isEmpty = false) (hn : n.isEmpty = false)
    (hprot : prot.contains n = false) (hv : valid d = true) :
    putUserProperty prot valid now st ⟨some i, some w, some n, some d, ev⟩ =
      .ok ({ st with userProperties :=
              st.userProperties ++ [⟨i, w, n, d, none, ev⟩] },
        .ok200 ⟨i, n, w, d, ev⟩)
    ∧ (⟨i, w, n, d, none, ev⟩ : UserPropertyRow) ∈
        listDefinitions
          { st with userProperties :=
              st.userProperties ++ [⟨i, w, n, d, none, ev⟩] } w := by
  constructor
  · simp only [putUserProperty, putStoreStep, prismaUserPropertyUpsert,
      protectedHas, optTruthy, createRow, schemaValidate, hprot, hi, hw, hn,
      hfresh, hv, Bool.not_false, Bool.and_true, Bool.and_self, Option.isSome_some,
      Bool.true_and, if_false, if_true, Bool.false_eq_true, reduceIte]
  · unfold listDefinitions
    apply List.mem_filter.mpr
    refine ⟨List.mem_append_right _ ?_, by simp⟩
    simp

/-- C2 (witness for the amended claim). -/
theorem C2_put_create_with_id_witness :
    (putUserProperty ["pn"] (fun _ => true) 3 ⟨[], []⟩
        ⟨some "a", some "w", some "n", some "d", none⟩ =
      .ok (⟨[⟨"a", "w", "n", "d", none, none⟩], []⟩, .ok200 ⟨"a", "n", "w", "d", none⟩))
    ∧ (⟨"a", "w", "n", "d", none, none⟩ : UserPropertyRow) ∈
        listDefinitions ⟨[⟨"a", "w", "n", "d", none, none⟩], []⟩ "w" :=
  C2_put_create_with_id ["pn"] (fun _ => true) 3 ⟨[], []⟩ "a" "w" "n" "d" none
    rfl rfl rfl rfl (by decide) rfl

end UserPropertiesController


namespace UserPropertiesController

/-- The row returned by the prisma upsert is a member of the resulting
store. -/
theorem prismaUserPropertyUpsert_mem (st : Store) (i : String)
    (c : UPCreateData) (u : UPUpdateData) :
    (prismaUserPropertyUpsert st i c u).2 ∈
      (prismaUserPropertyUpsert st i c u).1.userProperties := by
  unfold prismaUserPropertyUpsert
  cases hfind : st.userProperties.find? (fun r => r.id == i) with
  | none => simp
  | some r =>
      have hmem := List.mem_of_find?_eq_some hfind
      have hpred : (r.id == i) = true := by
        have hp := List.find?_some hfind
        simpa using hp
      apply List.mem_map.mpr
      exact ⟨r, hmem, by simp [hpred]⟩

/-- The row returned by a successful prisma update is a member of the
resulting store. -/
theorem prismaUserPropertyUpdate_mem (st : Store) (wid : Option String)
    (u : UPUpdateData) (st' : Store) (row : UserPropertyRow)
    (h : prismaUserPropertyUpdate st wid u = .ok (st', row)) :
    row ∈ st'.userProperties := by
  unfold prismaUserPropertyUpdate at h
  split at h
  · cases h
  · split at h
    · cases h
    · rename_i i junk r hfind
      simp only [Except.ok.injEq, Prod.mk.injEq] at h
      obtain ⟨hst, hrow⟩ := h
      subst hst
      subst hrow
      have hmem := List.mem_of_find?_eq_some hfind
      have hpred : (r.id == i) = true := by
        have hp := List.find?_some hfind
        simpa using hp
      apply List.mem_map.mpr
      exact ⟨r, hmem, by simp [hpred]⟩

/-- Every row returned by the persistence step of the PUT handler is a
member of the store the step returns. -/
theorem putStoreStep_mem (now : Nat) (st : Store)
    (body : UpsertUserPropertyResource) (st' : Store) (row : UserPropertyRow)
    (hstep : putStoreStep now st body = .ok (st', row)) :
    row ∈ st'.userProperties := by
  simp only [putStoreStep] at hstep
  split at hstep
  · rename_i i w n d hcond hid hwksp hname hdefn
    simp only [Except.ok.injEq] at hstep
    have h1 : (prismaUserPropertyUpsert st i
        { id := i, workspaceId := w, name := n, definition := d,
          exampleValue := body.exampleValue }
        { workspaceId := body.workspaceId, name := body.name,
          definition := body.definition,
          definitionUpdatedAt := if body.definition.isSome then some now else none,
          exampleValue := body.exampleValue }).1 = st' := congrArg Prod.fst hstep
    have h2 : (prismaUserPropertyUpsert st i
        { id := i, workspaceId := w, name := n, definition := d,
          exampleValue := body.exampleValue }
        { workspaceId := body.workspaceId, name := body.name,
          definition := body.definition,
          definitionUpdatedAt := if body.definition.isSome then some now else none,
          exampleValue := body.exampleValue }).2 = row := congrArg Prod.snd hstep
    rw [← h1, ← h2]
    exact prismaUserPropertyUpsert_mem st i _ _
  · exact prismaUserPropertyUpdate_mem _ _ _ _ _ hstep

/-- On any update path (a row with the supplied id exists), the row the
persistence step returns is the stored row with the handler's update
payload applied: supplied fields overwrite, omitted fields are left
unchanged, and `definitionUpdatedAt` is stamped with `now` exactly when
`definition` was supplied. -/
theorem putStoreStep_update_row (now : Nat) (st : Store)
    (body : UpsertUserPropertyResource) (i : String) (r : UserPropertyRow)
    (st' : Store) (row : UserPropertyRow)
    (hbid : body.id = some i)
    (hfind : st.userProperties.find? (fun q => q.id == i) = some r)
    (hstep : putStoreStep now st body = .ok (st', row)) :
    row = applyUPUpdate r
      { workspaceId := body.workspaceId
        name := body.name
        definition := body.definition
        definitionUpdatedAt := if body.definition.isSome then some now else none
        exampleValue := body.exampleValue } := by
  simp only [putStoreStep] at hstep
  split at hstep
  · rename_i j w n d hcond hid hwksp hname hdefn
    rw [hbid] at hid
    have hj : j = i := (Option.some.inj hid).symm
    subst hj
    simp only [prismaUserPropertyUpsert, hfind, Except.ok.injEq,
      Prod.mk.injEq] at hstep
    exact hstep.2.symm
  · rw [hbid] at hstep
    simp only [prismaUserPropertyUpdate, hfind, Except.ok.injEq,
      Prod.mk.injEq] at hstep
    exact hstep.2.symm

/-- On the insert path (the supplied id is fresh), the persistence step
succeeds only through the upsert branch and the row it returns is built
from the create payload; in particular `definitionUpdatedAt` is left
unset. -/
theorem putStoreStep_insert_row (now : Nat) (st : Store)
    (body : UpsertUserPropertyResource) (i : String)
    (st' : Store) (row : UserPropertyRow)
    (hbid : body.id = some i)
    (hfind : st.userProperties.find? (fun q => q.id == i) = none)
    (hstep : putStoreStep now st body = .ok (st', row)) :
    row.definitionUpdatedAt = none := by
  simp only [putStoreStep] at hstep
  split at hstep
  · rename_i j w n d hcond hid hwksp hname hdefn
    rw [hbid] at hid
    have hj : j = i := (Option.some.inj hid).symm
    subst hj
    simp only [prismaUserPropertyUpsert, hfind, Except.ok.injEq,
      Prod.mk.injEq] at hstep
    rw [← hstep.2]
    rfl
  · rw [hbid] at hstep
    simp only [prismaUserPropertyUpdate, hfind] at hstep
    cases hstep

end UserPropertiesController

namespace UserPropertiesController

/-- C5: handling of `definitionUpdatedAt` by the upsert.  On the insert
path the created row leaves it unset; on an update where `definition`
was supplied the row is stamped with the current time `now`, a value ≥
the previous timestamp whenever the clock is monotone; on an update
where `definition` was not supplied the previous value is kept. -/
theorem C5_put_definitionUpdatedAt (now : Nat) (st : Store)
    (body : UpsertUserPropertyResource) (i : String) (st' : Store)
    (row : UserPropertyRow) (hbid : body.id = some i) :
    (st.userProperties.find? (fun q => q.id == i) = none →
        putStoreStep now st body = .ok (st', row) →
        row.definitionUpdatedAt = none)
    ∧ (∀ r, st.userProperties.find? (fun q => q.id == i) = some r →
        body.definition.isSome = true →
        putStoreStep now st body = .ok (st', row) →
        row.definitionUpdatedAt = some now ∧
          ∀ t, r.definitionUpdatedAt = some t → t ≤ now →
            ∃ u, row.definitionUpdatedAt = some u ∧ t ≤ u)
    ∧ (∀ r, st.userProperties.find? (fun q => q.id == i) = some r →
        body.definition = none →
        putStoreStep now st body = .ok (st', row) →
        row.definitionUpdatedAt = r.definitionUpdatedAt) := by
  refine ⟨?_, ?_, ?_⟩
  · intro hfind hstep
    exact putStoreStep_insert_row now st body i st' row hbid hfind hstep
  · intro r hfind hdef hstep
    have hrow := putStoreStep_update_row now st body i r st' row hbid hfind hstep
    subst hrow
    constructor
    · simp [applyUPUpdate, hdef]
    · intro t ht hle
      exact ⟨now, by simp [applyUPUpdate, hdef], hle⟩
  · intro r hfind hdef hstep
    have hrow := putStoreStep_update_row now st body i r st' row hbid hfind hstep
    subst hrow
    simp [applyUPUpdate, hdef]

/-- C5 (witness, insert path). -/
theorem C5_put_definitionUpdatedAt_witness :
    (⟨"a", "w", "n", "d", none, none⟩ : UserPropertyRow).definitionUpdatedAt =
      none :=
  (C5_put_definitionUpdatedAt 3 ⟨[], []⟩
      ⟨some "a", some "w", some "n", some "d", none⟩ "a"
      ⟨[⟨"a", "w", "n", "d", none, none⟩], []⟩
      ⟨"a", "w", "n", "d", none, none⟩ rfl).1 rfl rfl

/-- C6: when persistence succeeds but the stored definition fails schema
validation, the PUT handler returns a server fault (500); the validation
is applied to the persisted row on every path that reaches
persistence. -/
theorem C6_put_invalid_stored_definition_500 (prot : List String)
    (valid : Defn → Bool) (now : Nat) (st : Store)
    (body : UpsertUserPropertyResource) (st' : Store) (row : UserPropertyRow)
    (hname : protectedHas prot body.name = false)
    (hstep : putStoreStep now st body = .ok (st', row))
    (hbad : valid row.definition = false) :
    putUserProperty prot valid now st body = .ok (st', .serverError500) := by
  simp only [putUserProperty, hname, hstep, schemaValidate, hbad,
    Bool.false_eq_true, if_false]

/-- C6 (witness). -/
theorem C6_put_invalid_stored_definition_500_witness :
    putUserProperty ["p"] (fun d => d == "good") 3 ⟨[], []⟩
        ⟨some "a", some "w", some "n", some "bad", none⟩ =
      .ok (⟨[⟨"a", "w", "n", "bad", none, none⟩], []⟩, .serverError500) :=
  C6_put_invalid_stored_definition_500 ["p"] (fun d => d == "good") 3 ⟨[], []⟩
    ⟨some "a", some "w", some "n", some "bad", none⟩
    ⟨[⟨"a", "w", "n", "bad", none, none⟩], []⟩
    ⟨"a", "w", "n", "bad", none, none⟩ rfl rfl rfl

/-- C8: the resource a successful upsert returns consists exactly of the
persisted row's id, name, workspaceId, its schema-validated definition,
and its exampleValue (a null stored value is normalized to absent); the
row itself is a member of the resulting store. -/
theorem C8_put_success_resource_shape (prot : List String)
    (valid : Defn → Bool) (now : Nat) (st : Store)
    (body : UpsertUserPropertyResource) (st' : Store) (row : UserPropertyRow)
    (hname : protectedHas prot body.name = false)
    (hstep : putStoreStep now st body = .ok (st', row))
    (hok : valid row.definition = true) :
    putUserProperty prot valid now st body =
      .ok (st', .ok200
        { id := row.id, name := row.name, workspaceId := row.workspaceId,
          definition := row.definition, exampleValue := row.exampleValue })
    ∧ row ∈ st'.userProperties
    ∧ (row.exampleValue = none →
        ({ id := row.id, name := row.name, workspaceId := row.workspaceId,
           definition := row.definition,
           exampleValue := row.exampleValue } : UserPropertyResource).exampleValue
          = none) := by
  refine ⟨?_, putStoreStep_mem now st body st' row hstep, fun h => h⟩
  simp only [putUserProperty, hname, hstep, schemaValidate, hok,
    Bool.false_eq_true, if_false, if_true]

/-- C8 (witness). -/
theorem C8_put_success_resource_shape_witness :
    (putUserProperty ["p"] (fun _ => true) 3 ⟨[], []⟩
        ⟨some "a", some "w", some "n", some "d", some "e"⟩ =
      .ok (⟨[⟨"a", "w", "n", "d", none, some "e"⟩], []⟩,
        .ok200 ⟨"a", "n", "w", "d", some "e"⟩))
    ∧ (⟨"a", "w", "n", "d", none, some "e"⟩ : UserPropertyRow) ∈
        [(⟨"a", "w", "n", "d", none, some "e"⟩ : UserPropertyRow)]
    ∧ ((⟨"a", "w", "n", "d", none, some "e"⟩ : UserPropertyRow).exampleValue = none →
        (⟨"a", "n", "w", "d", some "e"⟩ : UserPropertyResource).exampleValue = none) :=
  C8_put_success_resource_shape ["p"] (fun _ => true) 3 ⟨[], []⟩
    ⟨some "a", some "w", some "n", some "d", some "e"⟩
    ⟨[⟨"a", "w", "n", "d", none, some "e"⟩], []⟩
    ⟨"a", "w", "n", "d", none, some "e"⟩ rfl rfl rfl

/-- C9: round trip — the definition inside any resource returned by a
successful upsert validates again under the same schema validator, with
the same result. -/
theorem C9_put_roundtrip_validation (prot : List String)
    (valid : Defn → Bool) (now : Nat) (st : Store)
    (body : UpsertUserPropertyResource) (st' : Store)
    (res : UserPropertyResource)
    (h : putUserProperty prot valid now st body = .ok (st', .ok200 res)) :
    schemaValidate valid res.definition = .ok res.definition := by
  unfold putUserProperty at h
  split at h
  · simp at h
  · split at h
    · cases h
    · split at h
      · simp at h
      · rename_i stv row hstep2 junk defn heq
        simp only [Except.ok.injEq, Prod.mk.injEq, PutResponse.ok200.injEq] at h
        obtain ⟨hst, hres⟩ := h
        have hresdef : res.definition = defn := by rw [← hres]
        unfold schemaValidate at heq
        split at heq
        · rename_i hvt
          have hdefeq : defn = row.definition :=
            (Option.some.inj (congrArg Except.toOption heq)).symm
          rw [hresdef, hdefeq]
          simp [schemaValidate, hvt]
        · cases heq

/-- C9 (witness). -/
theorem C9_put_roundtrip_validation_witness :
    schemaValidate (fun _ => true)
        ((⟨"a", "n", "w", "d", none⟩ : UserPropertyResource).definition) =
      .ok (⟨"a", "n", "w", "d", none⟩ : UserPropertyResource).definition :=
  C9_put_roundtrip_validation ["p"] (fun _ => true) 3 ⟨[], []⟩
    ⟨some "a", some "w", some "n", some "d", none⟩
    ⟨[⟨"a", "w", "n", "d", none, none⟩], []⟩
    ⟨"a", "n", "w", "d", none⟩ rfl

end UserPropertiesController
